import Mathlib

/-!
Verification of the session-correlation and lifecycle layer of the
stagehand MCP SSE server.  The TypeScript sources are shallowly embedded:
JavaScript `Map`s / plain objects become association lists (`mapSet`
overwrites in place, `mapDelete` removes the entry for a key), JS strings
become Lean `String` / `List Char`, thrown exceptions become `Except`,
and `async` interleaving is made explicit where a claim is about
concurrency.  Machine-irrelevant collaborators (the Stagehand instance,
the SSE transport) are abstracted to opaque identifiers (`Nat`).
-/

namespace Stagehand

/-! ### Association-list model of a JS `Map` / plain object -/

/-- Lookup in an association list, first (and with unique keys, only)
binding wins.  Models `Map.get` / `obj[k]`. -/
def mapLookup {κ α : Type} [DecidableEq κ] : List (κ × α) → κ → Option α
  | [], _ => none
  | (k', v') :: rest, k => if k' = k then some v' else mapLookup rest k

/-- Insert-or-overwrite, keeping the original position of an overwritten
key (JS `Map.set` / `obj[k] = v` semantics). -/
def mapSet {κ α : Type} [DecidableEq κ] : List (κ × α) → κ → α → List (κ × α)
  | [], k, v => [(k, v)]
  | (k', v') :: rest, k, v =>
      if k' = k then (k, v) :: rest else (k', v') :: mapSet rest k v

/-- Remove every binding of a key.  On the unique-key lists produced by
`mapSet` this is exactly `Map.delete` / `delete obj[k]`. -/
def mapDelete {κ α : Type} [DecidableEq κ] : List (κ × α) → κ → List (κ × α)
  | [], _ => []
  | (k', v') :: rest, k =>
      if k' = k then mapDelete rest k else (k', v') :: mapDelete rest k

/-- Does the list `s` start with the list `pat`? -/
def listStarts {α : Type} [DecidableEq α] : List α → List α → Bool
  | [], _ => true
  | _ :: _, [] => false
  | p :: ps, c :: cs => p = c && listStarts ps cs

/-- Does the list contain `pat` as a contiguous run? -/
def listHasInfix {α : Type} [DecidableEq α] (pat : List α) : List α → Bool
  | [] => listStarts pat []
  | c :: rest => listStarts pat (c :: rest) || listHasInfix pat rest

/-- JS `haystack.includes(needle)` on strings. -/
def strIncludes (s pat : String) : Bool := listHasInfix pat.data s.data

/-- JS `s.startsWith(pat)`. -/
def strStartsWith (s pat : String) : Bool := listStarts pat.data s.data

/-! ### Configuration resolution (`getStagehandConfig`, server.ts) -/

/-- The `ApiKeys` interface of server.ts: all three fields optional. -/
structure ApiKeys where
  browserbaseApiKey : Option String
  browserbaseProjectId : Option String
  openaiApiKey : Option String
deriving DecidableEq

/-- The process environment variables consulted by `getStagehandConfig`. -/
structure EnvVars where
  BROWSERBASE_API_KEY : Option String
  BROWSERBASE_PROJECT_ID : Option String
  OPENAI_API_KEY : Option String
  CONTEXT_ID : Option String
deriving DecidableEq

/-- JS `a || b` on string-or-undefined values: `a` wins unless it is
`undefined` or the empty string (both falsy). -/
def jsOr (a b : Option String) : Option String :=
  match a with
  | some s => if s = "" then b else some s
  | none => b

/-- JS truthiness of a string-or-undefined value. -/
def truthy : Option String → Bool
  | none => false
  | some s => s != ""

/-- The fields of the `ConstructorParams` object built by
`getStagehandConfig` that the session layer reads: the three credential
strings and the optional Browserbase context id.  (The remaining fields
are constants and never consulted by the session layer.) -/
structure ConstructorParams where
  apiKey : String
  projectId : String
  modelApiKey : String
  contextId : Option String
deriving DecidableEq

/-- `getStagehandConfig(apiKeys)` (server.ts, SessionManager revision):
resolves each credential from the argument with environment fallback via
`||`, throws listing the missing fields when any is falsy, and records
`process.env.CONTEXT_ID` (itself guarded by JS truthiness) as the
optional context id. -/
def getStagehandConfig (apiKeys : Option ApiKeys) (env : EnvVars) :
    Except String ConstructorParams :=
  let a := jsOr (match apiKeys with | some ks => ks.browserbaseApiKey | none => none)
    env.BROWSERBASE_API_KEY
  let p := jsOr (match apiKeys with | some ks => ks.browserbaseProjectId | none => none)
    env.BROWSERBASE_PROJECT_ID
  let o := jsOr (match apiKeys with | some ks => ks.openaiApiKey | none => none)
    env.OPENAI_API_KEY
  if !truthy a || !truthy p || !truthy o then
    .error ("Missing required API keys: "
      ++ (if !truthy a then "browserbaseApiKey " else "")
      ++ (if !truthy p then "browserbaseProjectId " else "")
      ++ (if !truthy o then "openaiApiKey" else ""))
  else
    .ok { apiKey := (a.getD ""), projectId := (p.getD ""),
          modelApiKey := (o.getD ""),
          contextId := if truthy env.CONTEXT_ID then env.CONTEXT_ID else none }

/-! ### `SessionManager.getSessionKey`: `JSON.stringify` of the credential
tuple.  We embed the exact string `JSON.stringify` produces: fixed key
order, string values escaped, `undefined`-valued keys omitted. -/

/-- Lower-case hex digit, as produced by `JSON.stringify` for control
characters. -/
def hexDigit (n : Nat) : Char :=
  if n < 10 then Char.ofNat (48 + n) else Char.ofNat (87 + n)

/-- Per-character JSON string escaping, exactly as `JSON.stringify` does
it: quote and backslash escaped, the five short control escapes, other
control characters as `\u00XX`, everything else literal. -/
def escapeChar (c : Char) : List Char :=
  if c = '"' then ['\\', '"']
  else if c = '\\' then ['\\', '\\']
  else if c = '\x08' then ['\\', 'b']
  else if c = '\t' then ['\\', 't']
  else if c = '\n' then ['\\', 'n']
  else if c = '\x0c' then ['\\', 'f']
  else if c = '\r' then ['\\', 'r']
  else if c.toNat < 32 then
    ['\\', 'u', '0', '0', hexDigit (c.toNat / 16), hexDigit (c.toNat % 16)]
  else [c]

/-- JSON encoding of a string value: quoted, characters escaped. -/
def jsonString (s : List Char) : List Char :=
  '"' :: (s.flatMap escapeChar ++ ['"'])

/-- Value of a lower-case hex digit (proof tool: inverse of `hexDigit`,
used to show the JSON encoding is a prefix code). -/
def hexVal (c : Char) : Option Nat :=
  if 48 ≤ c.toNat ∧ c.toNat ≤ 57 then some (c.toNat - 48)
  else if 97 ≤ c.toNat ∧ c.toNat ≤ 102 then some (c.toNat - 87)
  else none

/-- Decode one JSON string-escape unit (proof tool: left inverse of
`escapeChar`).  An unescaped quote — the closing delimiter — and any
malformed escape decode to `none`. -/
def decodeEsc : List Char → Option (Char × List Char)
  | [] => none
  | c :: rest =>
    if c = '\\' then
      match rest with
      | [] => none
      | d :: rest2 =>
        if d = 'u' then
          match rest2 with
          | '0' :: '0' :: h :: l :: rest3 =>
            (match hexVal h, hexVal l with
             | some hv, some lv => some (Char.ofNat (16 * hv + lv), rest3)
             | _, _ => none)
          | _ => none
        else if d = '"' then some ('"', rest2)
        else if d = '\\' then some ('\\', rest2)
        else if d = 'b' then some ('\x08', rest2)
        else if d = 't' then some ('\t', rest2)
        else if d = 'n' then some ('\n', rest2)
        else if d = 'f' then some ('\x0c', rest2)
        else if d = 'r' then some ('\r', rest2)
        else none
    else if c = '"' then none
    else some (c, rest)

/-- `SessionManager.getSessionKey(config)`: the characters of
`JSON.stringify({browserbaseApiKey, browserbaseProjectId, openaiApiKey,
contextId})`.  The first three values are always defined strings (the
config validated); `contextId` is omitted when `undefined`. -/
def getSessionKeyChars (c : ConstructorParams) : List Char :=
  "\x7b\"browserbaseApiKey\":".data ++ jsonString c.apiKey.data
    ++ ",\"browserbaseProjectId\":".data ++ jsonString c.projectId.data
    ++ ",\"openaiApiKey\":".data ++ jsonString c.modelApiKey.data
    ++ (match c.contextId with
        | some ctx => ",\"contextId\":".data ++ jsonString ctx.data
        | none => [])
    ++ "\x7d".data

/-- `SessionManager.getSessionKey` as a `String`-valued fingerprint. -/
def getSessionKey (c : ConstructorParams) : String :=
  String.mk (getSessionKeyChars c)

/-! ### `SessionManager`: the session store -/

/-- One record of `SessionManager.sessions` (`StagehandSession` in
server.ts): the Stagehand instance is abstracted to an opaque handle
number; `config` is not re-read after insertion and is dropped. -/
structure StagehandSession where
  handle : Nat
  lastUsed : Int
deriving DecidableEq

/-- The `sessions : Map<string, StagehandSession>` field. -/
abbrev SessionsMap : Type := List (String × StagehandSession)

/-- Outcome of the liveness probe
`existingSession.stagehand.page.evaluate(() => document.title)` (or of
the preceding page-object check): success, or a thrown error carrying a
message. -/
inductive ProbeResult where
  | ok
  | fail (msg : String)
deriving DecidableEq

/-- `SessionManager.getSession(apiKeys)`.  Environment, probe outcome,
construction outcome, the identity of a freshly constructed Stagehand
instance and the current time are explicit parameters; the result is the
returned handle together with the updated store, or the thrown error.
Control flow mirrors the source: config errors propagate; with an
existing record a probe failure deletes the record and falls through to
the creation path (the catch block does not inspect the message); the
creation path installs the new record only after `init()` succeeds. -/
def getSession (apiKeys : Option ApiKeys) (env : EnvVars)
    (probe : ProbeResult) (constructResult : Except String Unit)
    (freshHandle : Nat) (now : Int) (st : SessionsMap) :
    Except String (Nat × SessionsMap) :=
  match getStagehandConfig apiKeys env with
  | .error e => .error e
  | .ok config =>
    let sessionKey := getSessionKey config
    let createNew : SessionsMap → Except String (Nat × SessionsMap) := fun st' =>
      match constructResult with
      | .error e => .error e
      | .ok _ => .ok (freshHandle,
          mapSet st' sessionKey { handle := freshHandle, lastUsed := now })
    match mapLookup st sessionKey with
    | some sess =>
      match probe with
      | .ok => .ok (sess.handle,
          mapSet st sessionKey { sess with lastUsed := now })
      | .fail _ => createNew (mapDelete st sessionKey)
    | none => createNew st

/-- `SessionManager.closeSession(apiKeys)`: recompute the key (the config
call can throw), close the page if a record exists (`closeFails` is the
outcome of `page.close()`, discarded by the catch), and in the `finally`
delete the record. -/
def closeSession (apiKeys : Option ApiKeys) (env : EnvVars)
    (closeFails : Bool) (st : SessionsMap) : Except String SessionsMap :=
  match getStagehandConfig apiKeys env with
  | .error e => .error e
  | .ok config =>
    let sessionKey := getSessionKey config
    match mapLookup st sessionKey with
    | some _ => .ok (mapDelete st sessionKey)
    | none => .ok st

/-- `SessionManager.cleanupStaleSessions()`: collect the keys of every
record with `now - lastUsed > sessionTimeout` (closing each page;
`closeOutcome` gives the per-handle close result, discarded by the
catch), then delete the collected keys.  Returns the new store and the
count that is logged. -/
def cleanupStaleSessions (now ttl : Int) (closeOutcome : Nat → Bool)
    (st : SessionsMap) : SessionsMap × Nat :=
  let keysToRemove := (st.filter (fun e => ttl < now - e.2.lastUsed)).map (·.1)
  (keysToRemove.foldl (fun acc k => mapDelete acc k) st, keysToRemove.length)

/-! ### The legacy single-instance `ensureStagehand` (first revision of
server.ts), which classifies probe failures by message -/

/-- The message test in the legacy `ensureStagehand` catch block:
`error.message.includes(...)` over the three "resource gone" phrases. -/
def isSessionGoneError (msg : String) : Bool :=
  strIncludes msg "Target page, context or browser has been closed"
    || strIncludes msg "Session expired"
    || strIncludes msg "context destroyed"

/-- The legacy `ensureStagehand`, specialised to an unchanged config:
no instance yet → construct; probe ok → reuse; probe failure → recreate
only when the message is in the "gone" class, otherwise rethrow. -/
def ensureStagehandLegacy (current : Option Nat) (probe : ProbeResult)
    (freshHandle : Nat) : Except String Nat :=
  match current with
  | none => .ok freshHandle
  | some h =>
    match probe with
    | .ok => .ok h
    | .fail msg =>
      if isSessionGoneError msg then .ok freshHandle else .error msg

/-! ### The `CallToolRequestSchema` handler (Protocol Dispatcher) -/

/-- The envelopes the CallTool handler can return: a tool result, the
`isError: true` content envelope built by the inner catch, or the
`{error: {code, message}}` object built by the outer catch. -/
inductive CallToolResponse where
  | result (payload : String)
  | appError (texts : List String)
  | protocolError (code : Int) (message : String)
deriving DecidableEq

/-- The text block `Operation logs:\n...` appended to every `isError`
envelope. -/
def operationLogsText (opLogs : List String) : String :=
  "Operation logs:\n" ++ String.intercalate "\n" opLogs

/-- The `CallToolRequestSchema` handler.  `tools` is the list of names in
`TOOLS` (tools.ts is an external collaborator; the handler only asks
whether the requested name is in it).  An absent or unknown name throws
`Invalid tool name: ...` in the OUTER try, so it reaches the outer catch
and becomes a protocol error object with code -32603; failures of
`ensureStagehand` or `handleToolCall` are caught by the inner catch and
become the `isError` content envelope. -/
def callToolHandler (tools : List String) (nameParam : Option String)
    (ensure : Except String Nat) (toolRun : Nat → Except String String)
    (opLogs : List String) : CallToolResponse :=
  match nameParam with
  | none => .protocolError (-32603) "Internal error: Invalid tool name: undefined"
  | some n =>
    if n = "" || !(tools.contains n) then
      .protocolError (-32603) ("Internal error: Invalid tool name: " ++ n)
    else
      match ensure with
      | .error e => .appError
          ["Failed to initialize Stagehand: " ++ e, operationLogsText opLogs]
      | .ok inst =>
        match toolRun inst with
        | .ok payload => .result payload
        | .error e => .appError
            ["Failed to initialize Stagehand: " ++ e, operationLogsText opLogs]

/-! ### The SSE transport adapter (src/unnamed/part_000) -/

/-- The `sessions` record of the SSE entry point: stream session id →
connection (transport/response pair, abstracted to an id). -/
abbrev StreamRegistry : Type := List (String × Nat)

/-- The registration performed by the `/sse` handler:
`sessions[sessionId] = \x7b transport, response \x7d` — a plain object
assignment, which overwrites any existing entry for the id. -/
def registerSession (reg : StreamRegistry) (sessionId : String)
    (conn : Nat) : StreamRegistry :=
  mapSet reg sessionId conn

/-- Result of the `/messages` POST handler: the request is forwarded to
the registered transport, or answered directly with a status and body. -/
inductive PostOutcome where
  | forwarded (conn : Nat)
  | errorStatus (status : Nat) (body : String)
deriving DecidableEq

/-- The `app.post('/messages')` handler.  `sessionIdParam` is
`req.query.sessionId` (`none` = absent).  The handler reads the registry
and never writes it; the registry is returned unchanged alongside the
outcome.  An absent — or, because JS `!sessionId` also rejects the empty
string, empty — id yields 400; an unregistered id yields 503 with the
descriptive body. -/
def handleMessagesPost (reg : StreamRegistry) (sessionIdParam : Option String) :
    PostOutcome × StreamRegistry :=
  match sessionIdParam with
  | none => (.errorStatus 400 "Missing sessionId parameter", reg)
  | some sid =>
    if sid = "" then (.errorStatus 400 "Missing sessionId parameter", reg)
    else
      match mapLookup reg sid with
      | some conn => (.forwarded conn, reg)
      | none =>
          (.errorStatus 503 ("No active SSE connection for session " ++ sid), reg)

/-! ### Interleaving semantics of two concurrent `getSession` calls

`getSession` is `async`: it suspends at `stagehand.init()` (creation
path) and at `page.evaluate` (probe path).  For the concurrency claim we
make the suspension points explicit.  Both tasks use the same session
key; probes succeed and construction succeeds (the racy scenario needs
neither failure). -/

/-- Shared state: the `sessions` map (key → handle), the identity of the
next Stagehand instance `new` would produce, and how many instances have
been constructed. -/
structure SysState where
  store : List (String × Nat)
  nextHandle : Nat
  constructed : Nat
deriving DecidableEq

/-- Program counter of one `getSession` call.  `start`: about to run
`sessions.get`; on a hit it starts the probe and suspends (`probing`),
on a miss it constructs the instance, calls `init()` and suspends
(`initing`); the resumption after `init()` installs the record and
returns, and the resumption after the probe returns the existing
handle. -/
inductive TaskPC where
  | start
  | probing (h : Nat)
  | initing (h : Nat)
  | done (h : Nat)
deriving DecidableEq

/-- One atomic step (run-to-next-suspension) of a `getSession` task. -/
def taskStep (key : String) (t : TaskPC) (s : SysState) : TaskPC × SysState :=
  match t with
  | .start =>
    match mapLookup s.store key with
    | some h => (.probing h, s)
    | none => (.initing s.nextHandle,
        { s with nextHandle := s.nextHandle + 1,
                 constructed := s.constructed + 1 })
  | .probing h => (.done h, s)
  | .initing h => (.done h, { s with store := mapSet s.store key h })
  | .done h => (.done h, s)

/-- Run two tasks A and B under a schedule (`true` = A steps next). -/
def runSched (key : String) : List Bool → TaskPC × TaskPC × SysState →
    TaskPC × TaskPC × SysState
  | [], st => st
  | b :: rest, (ta, tb, s) =>
    if b then
      let (ta', s') := taskStep key ta s
      runSched key rest (ta', tb, s')
    else
      let (tb', s') := taskStep key tb s
      runSched key rest (ta, tb', s')

/-- Initial state: empty store, no record for the shared key, handles
numbered from 1. -/
def initSys : TaskPC × TaskPC × SysState :=
  (.start, .start, { store := [], nextHandle := 1, constructed := 0 })

/-! ### Resources module (src/stagehand/src/resources.ts) -/

/-- The two module-level maps: `screenshots` (name → data) and
`sessionScreenshots` (session id → set of names, the set kept as its
insertion-ordered element list). -/
structure ResState where
  screenshots : List (String × String)
  sessionScreenshots : List (String × List String)
deriving DecidableEq

/-- The empty initial resources state. -/
def resInit : ResState := { screenshots := [], sessionScreenshots := [] }

/-- `addScreenshot(sessionId, name, data)`: store the data under the name
in the global map, then add the name to the session's tracking set
(creating it if absent; `Set.add` is a no-op on a present element). -/
def addScreenshot (sessionId name data : String) (st : ResState) : ResState :=
  { screenshots := mapSet st.screenshots name data,
    sessionScreenshots :=
      match mapLookup st.sessionScreenshots sessionId with
      | none => mapSet st.sessionScreenshots sessionId [name]
      | some names => mapSet st.sessionScreenshots sessionId
          (if names.contains name then names else names ++ [name]) }

/-- `cleanupSessionScreenshots(sessionId)`: absent tracking set → 0 and
no change; otherwise delete each tracked name from the global map
(counting the deletes that found an entry), then drop the tracking set.
Returns the count and the new state. -/
def cleanupSessionScreenshots (sessionId : String) (st : ResState) :
    Nat × ResState :=
  match mapLookup st.sessionScreenshots sessionId with
  | none => (0, st)
  | some names =>
    let (scr, count) := names.foldl
      (fun (acc : List (String × String) × Nat) nm =>
        if (mapLookup acc.1 nm).isSome then (mapDelete acc.1 nm, acc.2 + 1)
        else acc)
      (st.screenshots, 0)
    (count, { screenshots := scr,
              sessionScreenshots := mapDelete st.sessionScreenshots sessionId })

/-- JS `s.split("://")` specialised to the three-character separator:
scan left to right, cut at each non-overlapping occurrence of
`[x, y, z]`. -/
def splitSep3 (x y z : Char) : List Char → List (List Char)
  | p :: q :: r :: rest =>
    if p = x ∧ q = y ∧ r = z then [] :: splitSep3 x y z rest
    else
      match splitSep3 x y z (q :: r :: rest) with
      | [] => [[p]]
      | h :: t => (p :: h) :: t
  | s => [s]

/-- `readResource(uri)`: for a `screenshot://` uri, look up the segment
`uri.split("://")[1]` in the global map and, when the stored value is
truthy (`if (screenshot)`, so an empty-string blob is treated as
absent), return the single-element contents list; anything else throws
`Resource not found: <uri>`. -/
def readResource (uri : String) (st : ResState) :
    Except String (List (String × String × String)) :=
  if strStartsWith uri "screenshot://" then
    match (splitSep3 ':' '/' '/' uri.data).get? 1 with
    | some nameChars =>
      match mapLookup st.screenshots (String.mk nameChars) with
      | some data =>
        if data = "" then .error ("Resource not found: " ++ uri)
        else .ok [(uri, "image/png", data)]
      | none => .error ("Resource not found: " ++ uri)
    | none => .error ("Resource not found: " ++ uri)
  else .error ("Resource not found: " ++ uri)

/-! ### Concrete inputs used by counterexamples and witnesses -/

/-- A request-supplied key set with all three credentials present. -/
def demoApiKeys : ApiKeys :=
  { browserbaseApiKey := some "a", browserbaseProjectId := some "p",
    openaiApiKey := some "o" }

/-- An empty process environment. -/
def demoEnv : EnvVars :=
  { BROWSERBASE_API_KEY := none, BROWSERBASE_PROJECT_ID := none,
    OPENAI_API_KEY := none, CONTEXT_ID := none }

/-- The config `getStagehandConfig (some demoApiKeys) demoEnv` resolves to. -/
def demoConfig : ConstructorParams :=
  { apiKey := "a", projectId := "p", modelApiKey := "o", contextId := none }

/-! ## Theorems -/

/-! ### Association-list lemmas -/

theorem mapLookup_mapSet_self {κ α : Type} [DecidableEq κ]
    (st : List (κ × α)) (k : κ) (v : α) :
    mapLookup (mapSet st k v) k = some v := by
  induction st with
  | nil => simp [mapSet, mapLookup]
  | cons e rest ih =>
    by_cases h : e.1 = k
    · simp [mapSet, mapLookup, h]
    · simp [mapSet, mapLookup, h, ih]

theorem mapLookup_mapSet_ne {κ α : Type} [DecidableEq κ]
    (st : List (κ × α)) {k k' : κ} (v : α) (h : k' ≠ k) :
    mapLookup (mapSet st k v) k' = mapLookup st k' := by
  have hk : ¬ k = k' := fun hc => h hc.symm
  induction st with
  | nil => simp [mapSet, mapLookup, hk]
  | cons e rest ih =>
    by_cases he : e.1 = k
    · have he' : ¬ e.1 = k' := by rw [he]; exact hk
      simp [mapSet, mapLookup, he, hk, he']
    · by_cases he' : e.1 = k'
      · simp [mapSet, mapLookup, he, he', h]
      · simp [mapSet, mapLookup, he, he', ih]

theorem mapLookup_mapDelete_self {κ α : Type} [DecidableEq κ]
    (st : List (κ × α)) (k : κ) :
    mapLookup (mapDelete st k) k = none := by
  induction st with
  | nil => simp [mapDelete, mapLookup]
  | cons e rest ih =>
    by_cases h : e.1 = k
    · simp [mapDelete, h, ih]
    · simp [mapDelete, mapLookup, h, ih]

theorem mapLookup_mapDelete_ne {κ α : Type} [DecidableEq κ]
    (st : List (κ × α)) {k k' : κ} (h : k' ≠ k) :
    mapLookup (mapDelete st k) k' = mapLookup st k' := by
  have hk : ¬ k = k' := fun hc => h hc.symm
  induction st with
  | nil => simp [mapDelete]
  | cons e rest ih =>
    by_cases he : e.1 = k
    · have he' : ¬ e.1 = k' := by rw [he]; exact hk
      simp [mapDelete, mapLookup, he, he', hk, ih]
    · by_cases he' : e.1 = k'
      · simp [mapDelete, mapLookup, he, he', h]
      · simp [mapDelete, mapLookup, he, he', ih]

/-! ### C1 — concurrent `getSession` calls for one fingerprint -/

/-- C1 counterexample.  The claim states that two concurrent
`getSession` calls with the same fingerprint construct at most one
Stagehand resource and both receive the same handle.  Under the
interleaving in which both tasks run their `sessions.get` miss before
either resumes from `stagehand.init()` (schedule A, B, A, B), two
instances are constructed, caller A returns handle 1 while caller B
returns handle 2, and the store keeps only the later record — refuting
the claim as stated. -/
theorem counterexample_C1_interleaved_acquire_constructs_two :
    (runSched "K" [true, false, true, false] initSys).2.2.constructed = 2
    ∧ (runSched "K" [true, false, true, false] initSys).1 = TaskPC.done 1
    ∧ (runSched "K" [true, false, true, false] initSys).2.1 = TaskPC.done 2
    ∧ (runSched "K" [true, false, true, false] initSys).2.2.store = [("K", 2)] := by
  decide

/-- C1 amended: `getSession` has no per-fingerprint serialization, so
the uniqueness guarantee only holds when the calls do not interleave:
when one call runs to completion before the other starts, exactly one
resource is constructed and both callers receive the same handle (the
second call finds the record and probes it); interleaved calls may
construct two distinct live handles, of which the store retains only the
later. -/
theorem claim_C1_serialized_acquire_constructs_one :
    runSched "K" [true, true, false, false] initSys
      = (TaskPC.done 1, TaskPC.done 1,
         { store := [("K", 1)], nextHandle := 2, constructed := 1 }) := by
  decide

/-! ### C3 — unknown tool name in the CallTool dispatcher -/

/-- C3 counterexample.  The claim states an unknown tool name yields an
application-level envelope tagged `isError`.  In the source the
`Invalid tool name` throw happens in the outer `try`, before the inner
`try` is entered, so the outer catch converts it to a protocol-level
error object with numeric code -32603 — not an `isError` envelope. -/
theorem counterexample_C3_unknown_tool_is_protocol_error :
    callToolHandler ["stagehand_navigate", "stagehand_act"] (some "bogus")
        (.ok 1) (fun _ => .ok "r") []
      = .protocolError (-32603) "Internal error: Invalid tool name: bogus" := by
  decide

/-- C3 amended: a CallTool request whose name is absent or not in TOOLS
returns the protocol-level error object
`\x7berror: \x7bcode: -32603, message: "Internal error: Invalid tool
name: <name>"\x7d\x7d` (naming the invalid tool); the `isError`
application envelope arises only from failures of Stagehand
initialization or tool execution for a known tool name. -/
theorem claim_C3_unknown_tool_envelope (tools : List String) (n : String)
    (ensure : Except String Nat) (run : Nat → Except String String)
    (logs : List String) (hn : tools.contains n = false) :
    callToolHandler tools (some n) ensure run logs
        = .protocolError (-32603) ("Internal error: Invalid tool name: " ++ n)
    ∧ callToolHandler tools none ensure run logs
        = .protocolError (-32603) "Internal error: Invalid tool name: undefined"
    ∧ (∀ m e, tools.contains m = true → m ≠ "" →
        callToolHandler tools (some m) (.error e) run logs
          = .appError ["Failed to initialize Stagehand: " ++ e,
                       operationLogsText logs]) := by
  have hn' : ¬ (n ∈ tools) := by simpa using hn
  refine ⟨?_, rfl, ?_⟩
  · simp [callToolHandler, hn']
  · intro m e hm hme
    have hm' : m ∈ tools := by simpa using hm
    simp [callToolHandler, hm', hme]

/-- C3 witness: the amended statement evaluated on a concrete request. -/
theorem claim_C3_unknown_tool_envelope_witness :
    callToolHandler ["stagehand_navigate"] (some "nope")
        (.ok 1) (fun _ => .ok "r") []
      = .protocolError (-32603) "Internal error: Invalid tool name: nope" :=
  (claim_C3_unknown_tool_envelope ["stagehand_navigate"] "nope"
    (.ok 1) (fun _ => .ok "r") [] (by decide)).1

/-! ### C4 — registering a stream session id that is already present -/

/-- C4 counterexample.  The claim states a duplicate registration fails
loudly and never silently overwrites.  The `/sse` handler's
`sessions[sessionId] = ...` is a plain object assignment: registering
connection 2 under an id already bound to connection 1 silently replaces
the entry and no error is possible. -/
theorem counterexample_C4_register_silently_overwrites :
    registerSession (registerSession [] "S" 1) "S" 2 = [("S", 2)] := by
  decide

/-- C4 amended: registration is an unconditional overwrite — after
registering a connection under an id, the registry maps the id to that
connection regardless of any earlier entry (last write wins), and the
operation cannot fail. -/
theorem claim_C4_register_last_write_wins (reg : StreamRegistry)
    (sid : String) (conn : Nat) :
    mapLookup (registerSession reg sid conn) sid = some conn :=
  mapLookup_mapSet_self reg sid conn

/-! ### C8 — the `/messages` POST endpoint -/

/-- C8 counterexample.  The claim states every supplied-but-unregistered
session id X yields 503 with body `No active SSE connection for session
X`.  For the supplied empty id (`?sessionId=`), `!sessionId` is true in
JS, so the handler answers 400 `Missing sessionId parameter` instead. -/
theorem counterexample_C8_empty_session_id_gets_400 :
    handleMessagesPost [("S", 1)] (some "")
      = (.errorStatus 400 "Missing sessionId parameter", [("S", 1)]) := by
  decide

/-- C8 amended: a missing — or empty — `sessionId` yields status 400; a
nonempty id with no registered connection yields status 503 with body
exactly `No active SSE connection for session <id>`; in both cases the
registry is returned unchanged (the handler performs no writes). -/
theorem claim_C8_messages_post_statuses (reg : StreamRegistry) (sid : String)
    (hne : sid ≠ "") (hreg : mapLookup reg sid = none) :
    handleMessagesPost reg none
        = (.errorStatus 400 "Missing sessionId parameter", reg)
    ∧ handleMessagesPost reg (some sid)
        = (.errorStatus 503 ("No active SSE connection for session " ++ sid),
           reg) := by
  exact ⟨rfl, by simp [handleMessagesPost, hne, hreg]⟩

/-- C8 witness: the amended statement evaluated on a concrete registry
and session id. -/
theorem claim_C8_messages_post_statuses_witness :
    handleMessagesPost [("S", 1)] (some "X")
      = (.errorStatus 503 "No active SSE connection for session X",
         [("S", 1)]) :=
  (claim_C8_messages_post_statuses [("S", 1)] "X" (by decide) (by decide)).2

/-! ### C2 — classification of probe failures in `getSession` -/

/-- C2 counterexample.  The claim states that a probe failure outside
the "resource gone" message class is rethrown to the caller with no
recreation.  In `SessionManager.getSession` the catch around the probe
does not inspect the message at all: with an existing record (handle 1)
and a probe failing with the unrelated message `connection reset by
peer`, the call succeeds with a silently recreated session (handle 2)
instead of rethrowing. -/
theorem counterexample_C2_non_gone_probe_failure_recreates :
    isSessionGoneError "connection reset by peer" = false
    ∧ getSession (some demoApiKeys) demoEnv
        (.fail "connection reset by peer") (.ok ()) 2 5
        [(getSessionKey demoConfig, { handle := 1, lastUsed := 0 })]
      = .ok (2, [(getSessionKey demoConfig, { handle := 2, lastUsed := 5 })]) := by
  constructor
  · decide
  · rfl

/-- C2 amended: in `SessionManager.getSession` every probe failure —
whatever its message — removes the record and silently recreates the
session; the message-based classification of probe failures (the
"gone" phrases recreate, any other message is rethrown) exists only in
the legacy single-instance `ensureStagehand` of the earlier revision. -/
theorem claim_C2_probe_failure_handling {apiKeys : Option ApiKeys}
    {env : EnvVars} {cfg : ConstructorParams} {msg : String} {fresh : Nat}
    {now : Int} {st : SessionsMap} {sess : StagehandSession}
    (hcfg : getStagehandConfig apiKeys env = .ok cfg)
    (hlook : mapLookup st (getSessionKey cfg) = some sess) :
    getSession apiKeys env (.fail msg) (.ok ()) fresh now st
      = .ok (fresh, mapSet (mapDelete st (getSessionKey cfg))
          (getSessionKey cfg) { handle := fresh, lastUsed := now })
    ∧ (isSessionGoneError msg = false →
        ensureStagehandLegacy (some sess.handle) (.fail msg) fresh
          = .error msg)
    ∧ (isSessionGoneError msg = true →
        ensureStagehandLegacy (some sess.handle) (.fail msg) fresh
          = .ok fresh) := by
  refine ⟨?_, ?_, ?_⟩
  · simp [getSession, hcfg, hlook]
  · intro h; simp [ensureStagehandLegacy, h]
  · intro h; simp [ensureStagehandLegacy, h]

/-- C2 witness: the amended statement evaluated on a concrete store and
probe failure. -/
theorem claim_C2_probe_failure_handling_witness :
    getSession (some demoApiKeys) demoEnv (.fail "boom") (.ok ()) 2 5
        [(getSessionKey demoConfig, { handle := 1, lastUsed := 0 })]
      = .ok (2, mapSet (mapDelete
            [(getSessionKey demoConfig, { handle := 1, lastUsed := 0 })]
            (getSessionKey demoConfig))
          (getSessionKey demoConfig) { handle := 2, lastUsed := 5 }) :=
  (claim_C2_probe_failure_handling (by rfl) (by rfl)).1

/-! ### C7 — `closeSession` always removes the record -/

/-- C7 confirmed: for a valid configuration, `closeSession` completes
without throwing, afterwards no record for that fingerprint remains in
the store, and the result does not depend on whether closing the page
threw (the catch swallows it; the `finally` deletes the record). -/
theorem claim_C7_close_session_removes_record {apiKeys : Option ApiKeys}
    {env : EnvVars} {cfg : ConstructorParams} (cf : Bool) (st : SessionsMap)
    (hcfg : getStagehandConfig apiKeys env = .ok cfg) :
    ∃ st', closeSession apiKeys env cf st = .ok st'
      ∧ mapLookup st' (getSessionKey cfg) = none
      ∧ closeSession apiKeys env true st = closeSession apiKeys env false st := by
  cases hl : mapLookup st (getSessionKey cfg) with
  | some sess =>
    refine ⟨mapDelete st (getSessionKey cfg), ?_, ?_, rfl⟩
    · simp [closeSession, hcfg, hl]
    · exact mapLookup_mapDelete_self st (getSessionKey cfg)
  | none =>
    refine ⟨st, ?_, hl, rfl⟩
    simp [closeSession, hcfg, hl]

/-- C7 witness: `closeSession` on a concrete one-record store. -/
theorem claim_C7_close_session_removes_record_witness :
    ∃ st', closeSession (some demoApiKeys) demoEnv true
        [(getSessionKey demoConfig, { handle := 1, lastUsed := 0 })] = .ok st'
      ∧ mapLookup st' (getSessionKey demoConfig) = none
      ∧ closeSession (some demoApiKeys) demoEnv true
          [(getSessionKey demoConfig, { handle := 1, lastUsed := 0 })]
        = closeSession (some demoApiKeys) demoEnv false
          [(getSessionKey demoConfig, { handle := 1, lastUsed := 0 })] :=
  claim_C7_close_session_removes_record true
    [(getSessionKey demoConfig, { handle := 1, lastUsed := 0 })] (by rfl)

/-! ### C5 — the stale-session sweep -/

theorem mapDelete_eq_filter {κ α : Type} [DecidableEq κ]
    (st : List (κ × α)) (k : κ) :
    mapDelete st k = st.filter (fun e => decide (e.1 ≠ k)) := by
  induction st with
  | nil => rfl
  | cons e rest ih =>
    by_cases h : e.1 = k
    · simp [mapDelete, h, ih]
    · simp [mapDelete, h, ih]

theorem foldl_mapDelete {κ α : Type} [DecidableEq κ]
    (ks : List κ) (st : List (κ × α)) :
    ks.foldl (fun acc k => mapDelete acc k) st
      = st.filter (fun e => decide (e.1 ∉ ks)) := by
  induction ks generalizing st with
  | nil => simp
  | cons k ks ih =>
    rw [List.foldl_cons, ih, mapDelete_eq_filter, List.filter_filter]
    apply List.filter_congr
    intro e _
    by_cases h1 : e.1 = k <;> by_cases h2 : e.1 ∈ ks <;> simp [h1, h2]

/-- C5 confirmed: one sweep pass removes exactly the records with
`now - lastUsedAt > ttl` (every record with `now - lastUsedAt ≤ ttl`
survives in place, in order), the reported count is the number of stale
records, the sweep is a total function (it cannot throw), and its
outcome is independent of which page-close calls fail. -/
theorem claim_C5_sweep_removes_exactly_stale (now ttl : Int)
    (f g : Nat → Bool) (st : SessionsMap)
    (hnd : (st.map (·.1)).Nodup) :
    (cleanupStaleSessions now ttl f st).1
        = st.filter (fun e => decide (now - e.2.lastUsed ≤ ttl))
    ∧ (cleanupStaleSessions now ttl f st).2
        = (st.filter (fun e => decide (ttl < now - e.2.lastUsed))).length
    ∧ cleanupStaleSessions now ttl f st = cleanupStaleSessions now ttl g st := by
  have hinj := List.inj_on_of_nodup_map hnd
  refine ⟨?_, ?_, rfl⟩
  · show ((st.filter fun e => decide (ttl < now - e.2.lastUsed)).map (·.1)).foldl
        (fun acc k => mapDelete acc k) st = _
    rw [foldl_mapDelete]
    apply List.filter_congr
    intro e he
    by_cases hst : ttl < now - e.2.lastUsed
    · have hmem : e.1 ∈ (st.filter fun e => decide (ttl < now - e.2.lastUsed)).map (·.1) := by
        exact List.mem_map_of_mem _ (List.mem_filter.2 ⟨he, by simpa using hst⟩)
      simp [hmem, hst, not_lt.1, le_of_not_lt]
      omega
    · have hnmem : e.1 ∉ (st.filter fun e => decide (ttl < now - e.2.lastUsed)).map (·.1) := by
        intro hmem
        rcases List.mem_map.1 hmem with ⟨e', he', hkey⟩
        rcases List.mem_filter.1 he' with ⟨he'st, hstale⟩
        have : e' = e := hinj he'st he hkey
        rw [this] at hstale
        simp at hstale
        exact hst hstale
      simp [hnmem, hst]
      omega
  · show ((st.filter fun e => decide (ttl < now - e.2.lastUsed)).map (·.1)).length = _
    rw [List.length_map]

/-- C5 witness: the sweep on a concrete two-record store, one stale and
one fresh, removes only the stale one and reports count 1. -/
theorem claim_C5_sweep_removes_exactly_stale_witness :
    (cleanupStaleSessions 100 10 (fun _ => true)
        [("old", { handle := 1, lastUsed := 0 }),
         ("new", { handle := 2, lastUsed := 95 })]).1
      = [("new", { handle := 2, lastUsed := 95 })]
    ∧ (cleanupStaleSessions 100 10 (fun _ => true)
        [("old", { handle := 1, lastUsed := 0 }),
         ("new", { handle := 2, lastUsed := 95 })]).2 = 1 := by
  have h := claim_C5_sweep_removes_exactly_stale 100 10
    (fun _ => true) (fun _ => false)
    [("old", { handle := 1, lastUsed := 0 }),
     ("new", { handle := 2, lastUsed := 95 })] (by decide)
  exact ⟨by rw [h.1]; rfl, by rw [h.2.1]; rfl⟩

/-! ### C10 — the screenshot store is global, keyed by name alone -/

theorem addScreenshot_screenshots (s n d : String) (st : ResState) :
    (addScreenshot s n d st).screenshots = mapSet st.screenshots n d := rfl

theorem addScreenshot_track_lookup_ne (s s' n d : String) (st : ResState)
    (h : s' ≠ s) :
    mapLookup (addScreenshot s n d st).sessionScreenshots s'
      = mapLookup st.sessionScreenshots s' := by
  show mapLookup
    (match mapLookup st.sessionScreenshots s with
     | none => mapSet st.sessionScreenshots s [n]
     | some names => mapSet st.sessionScreenshots s
         (if names.contains n then names else names ++ [n])) s'
    = mapLookup st.sessionScreenshots s'
  cases mapLookup st.sessionScreenshots s with
  | none => exact mapLookup_mapSet_ne _ _ h
  | some names => exact mapLookup_mapSet_ne _ _ h

theorem addScreenshot_track_lookup_self_of_none (s n d : String)
    (st : ResState) (h : mapLookup st.sessionScreenshots s = none) :
    mapLookup (addScreenshot s n d st).sessionScreenshots s = some [n] := by
  show mapLookup
    (match mapLookup st.sessionScreenshots s with
     | none => mapSet st.sessionScreenshots s [n]
     | some names => mapSet st.sessionScreenshots s
         (if names.contains n then names else names ++ [n])) s
    = some [n]
  rw [h]
  exact mapLookup_mapSet_self _ _ _

/-- C10 confirmed: screenshots live in one global map keyed by name.
Adding name `n` for session `s2` after adding it for `s1` overwrites the
data; a subsequent cleanup of `s1` (which tracked `n`) deletes the
screenshot — taking `s2`'s data with it — and counts 1; and cleaning up
a session with no tracked screenshots returns 0 and changes nothing. -/
theorem claim_C10_screenshot_store_is_global {st : ResState}
    {s1 s2 n d1 d2 : String} (hne : s1 ≠ s2)
    (h1 : mapLookup st.sessionScreenshots s1 = none) :
    mapLookup (addScreenshot s2 n d2 (addScreenshot s1 n d1 st)).screenshots n
        = some d2
    ∧ (cleanupSessionScreenshots s1
        (addScreenshot s2 n d2 (addScreenshot s1 n d1 st))).1 = 1
    ∧ mapLookup (cleanupSessionScreenshots s1
        (addScreenshot s2 n d2 (addScreenshot s1 n d1 st))).2.screenshots n
        = none
    ∧ (∀ (st' : ResState) (s : String),
        mapLookup st'.sessionScreenshots s = none →
        cleanupSessionScreenshots s st' = (0, st')) := by
  have hscr : mapLookup
      (addScreenshot s2 n d2 (addScreenshot s1 n d1 st)).screenshots n
      = some d2 := by
    rw [addScreenshot_screenshots, addScreenshot_screenshots]
    exact mapLookup_mapSet_self _ _ _
  have htrack : mapLookup
      (addScreenshot s2 n d2 (addScreenshot s1 n d1 st)).sessionScreenshots s1
      = some [n] := by
    rw [addScreenshot_track_lookup_ne _ _ _ _ _ hne]
    exact addScreenshot_track_lookup_self_of_none _ _ _ _ h1
  have hclean : cleanupSessionScreenshots s1
      (addScreenshot s2 n d2 (addScreenshot s1 n d1 st))
      = (1, { screenshots := mapDelete
                (addScreenshot s2 n d2 (addScreenshot s1 n d1 st)).screenshots n,
              sessionScreenshots := mapDelete
                (addScreenshot s2 n d2
                  (addScreenshot s1 n d1 st)).sessionScreenshots s1 }) := by
    rw [cleanupSessionScreenshots, htrack]
    simp [List.foldl, hscr]
  refine ⟨hscr, ?_, ?_, ?_⟩
  · rw [hclean]
  · rw [hclean]
    exact mapLookup_mapDelete_self _ _
  · intro st' s h
    rw [cleanupSessionScreenshots, h]

/-- C10 witness: the cross-session overwrite and cleanup on concrete
sessions and data. -/
theorem claim_C10_screenshot_store_is_global_witness :
    mapLookup (addScreenshot "s2" "shot" "img2"
        (addScreenshot "s1" "shot" "img1" resInit)).screenshots "shot"
        = some "img2"
    ∧ (cleanupSessionScreenshots "s1" (addScreenshot "s2" "shot" "img2"
        (addScreenshot "s1" "shot" "img1" resInit))).1 = 1
    ∧ mapLookup (cleanupSessionScreenshots "s1"
        (addScreenshot "s2" "shot" "img2"
          (addScreenshot "s1" "shot" "img1" resInit))).2.screenshots "shot"
        = none
    ∧ (∀ (st' : ResState) (s : String),
        mapLookup st'.sessionScreenshots s = none →
        cleanupSessionScreenshots s st' = (0, st')) :=
  claim_C10_screenshot_store_is_global (by decide) (by decide)

/-! ### C9 — screenshot round-trip through `readResource` -/

theorem splitSep3_ne_nil (x y z : Char) (s : List Char) :
    splitSep3 x y z s ≠ [] := by
  induction s using splitSep3.induct x y z with
  | case1 p q r rest h ih => simp [splitSep3, h]
  | case2 p q r rest h hm ih => simp [splitSep3, if_neg h, hm]
  | case3 p q r rest h a t hm ih => simp [splitSep3, if_neg h, hm]
  | case4 s h => simp [splitSep3]

theorem splitSep3_cons3 (x y z p q r : Char) (rest : List Char) :
    splitSep3 x y z (p :: q :: r :: rest)
      = if p = x ∧ q = y ∧ r = z then [] :: splitSep3 x y z rest
        else match splitSep3 x y z (q :: r :: rest) with
          | [] => [[p]]
          | h :: t => (p :: h) :: t := rfl

theorem splitSep3_no_sep (x y z : Char) (s : List Char)
    (hno : listHasInfix [x, y, z] s = false) : splitSep3 x y z s = [s] := by
  induction s using splitSep3.induct x y z with
  | case1 p q r rest h ih =>
    exfalso
    obtain ⟨h1, h2, h3⟩ := h
    subst h1; subst h2; subst h3
    simp [listHasInfix, listStarts] at hno
  | case2 p q r rest h hm ih =>
    exact absurd hm (splitSep3_ne_nil x y z _)
  | case3 p q r rest h a t hm ih =>
    have hno' : listHasInfix [x, y, z] (q :: r :: rest) = false := by
      rw [listHasInfix] at hno
      exact (Bool.or_eq_false_iff.1 hno).2
    have h2 : a :: t = [q :: r :: rest] := hm.symm.trans (ih hno')
    injection h2 with ha ht
    subst ha; subst ht
    rw [splitSep3_cons3, if_neg h, hm]
  | case4 s h => simp [splitSep3]

theorem splitSep3_append (x y z : Char) (a b : List Char)
    (ha : ∀ c ∈ a, c ≠ x) :
    splitSep3 x y z (a ++ x :: y :: z :: b) = a :: splitSep3 x y z b := by
  induction a with
  | nil =>
    simp only [List.nil_append]
    rw [splitSep3_cons3, if_pos ⟨rfl, rfl, rfl⟩]
  | cons c a' ih =>
    have hc : c ≠ x := ha c (List.mem_cons_self c a')
    have ha' : ∀ u ∈ a', u ≠ x := fun u hu => ha u (List.mem_cons_of_mem c hu)
    have ih' := ih ha'
    match a' with
    | [] =>
      simp only [List.nil_append] at ih'
      simp only [List.cons_append, List.nil_append]
      rw [splitSep3_cons3, if_neg (fun hpq => hc hpq.1), ih']
    | [c'] =>
      simp only [List.cons_append, List.nil_append] at ih'
      simp only [List.cons_append, List.nil_append]
      rw [splitSep3_cons3, if_neg (fun hpq => hc hpq.1), ih']
    | c' :: c'' :: a''' =>
      simp only [List.cons_append] at ih'
      simp only [List.cons_append]
      rw [splitSep3_cons3, if_neg (fun hpq => hc hpq.1), ih']

theorem listStarts_append {α : Type} [DecidableEq α] (p s : List α) :
    listStarts p (p ++ s) = true := by
  induction p with
  | nil => rfl
  | cons c p' ih => simp [listStarts, ih]

theorem cleanup_fold_lookup (names : List String)
    (scr : List (String × String)) (c : Nat) (n : String) (hn : n ∉ names) :
    mapLookup (names.foldl
      (fun (acc : List (String × String) × Nat) nm =>
        if (mapLookup acc.1 nm).isSome then (mapDelete acc.1 nm, acc.2 + 1)
        else acc) (scr, c)).1 n = mapLookup scr n := by
  induction names generalizing scr c with
  | nil => rfl
  | cons nm names' ih =>
    have hn1 : n ≠ nm := fun h => hn (h ▸ List.mem_cons_self nm names')
    have hn2 : n ∉ names' := fun h => hn (List.mem_cons_of_mem nm h)
    rw [List.foldl_cons]
    by_cases hs : (mapLookup scr nm).isSome
    · simp only [hs, if_true]
      rw [ih _ _ hn2, mapLookup_mapDelete_ne _ hn1]
    · simp only [hs, if_false]
      exact ih _ _ hn2

theorem cleanup_preserves_untracked_lookup {st : ResState} {s' n : String}
    (htrack : ∀ names, mapLookup st.sessionScreenshots s' = some names →
      n ∉ names) :
    mapLookup (cleanupSessionScreenshots s' st).2.screenshots n
      = mapLookup st.screenshots n := by
  rw [cleanupSessionScreenshots]
  cases hc : mapLookup st.sessionScreenshots s' with
  | none => rfl
  | some names => exact cleanup_fold_lookup names _ 0 n (htrack names hc)

/-- Evaluation of `readResource` on a uri `screenshot://<n>` whose name
part contains no `://`: the lookup key is exactly `n`. -/
theorem readResource_clean_name {st : ResState} {n : String}
    (hno : listHasInfix [':', '/', '/'] n.data = false) :
    readResource ("screenshot://" ++ n) st
      = (match mapLookup st.screenshots n with
         | some d =>
           if d = "" then
             .error ("Resource not found: " ++ ("screenshot://" ++ n))
           else .ok [("screenshot://" ++ n, "image/png", d)]
         | none =>
           .error ("Resource not found: " ++ ("screenshot://" ++ n))) := by
  have hdata : ("screenshot://" ++ n).data
      = "screenshot".data ++ ':' :: '/' :: '/' :: n.data := by
    rw [String.data_append]
    rfl
  have hstart : strStartsWith ("screenshot://" ++ n) "screenshot://" = true := by
    rw [strStartsWith, String.data_append]
    exact listStarts_append _ _
  have hsplit : splitSep3 ':' '/' '/' ("screenshot://" ++ n).data
      = ["screenshot".data, n.data] := by
    rw [hdata, splitSep3_append ':' '/' '/' _ _ (by decide),
        splitSep3_no_sep _ _ _ _ hno]
  have hmk : String.mk n.data = n := rfl
  rw [readResource, if_pos (by rw [hstart]), hsplit]
  simp only [List.get?, hmk]

/-- C9 counterexample.  The claim quantifies over every name `n`, but
`readResource` extracts the lookup key with `uri.split("://")[1]`, which
for a name containing `://` keeps only the segment between the first two
separators.  After storing a screenshot named `a://b`, reading
`screenshot://a://b` looks up `a` and throws `Resource not found`
instead of returning the stored blob. -/
theorem counterexample_C9_separator_in_name_breaks_roundtrip :
    readResource "screenshot://a://b"
        (addScreenshot "s1" "a://b" "imgdata" resInit)
      = .error "Resource not found: screenshot://a://b" := by
  rfl

/-- C9 amended: for names free of the `://` separator and non-empty data
(JS truthiness: `readResource` treats an empty-string blob as absent),
after `addScreenshot(s, n, d)` reading `screenshot://<n>` returns the
single contents element `(uri, image/png, d)`; the stored entry survives
later adds under other names and cleanups of sessions that do not track
`n`; a uri without the `screenshot://` scheme, or a clean name with no
stored entry, yields the error `Resource not found: <uri>`. -/
theorem claim_C9_screenshot_roundtrip :
    (∀ (st : ResState) (s n d : String),
      listHasInfix [':', '/', '/'] n.data = false → d ≠ "" →
      readResource ("screenshot://" ++ n) (addScreenshot s n d st)
        = .ok [("screenshot://" ++ n, "image/png", d)])
    ∧ (∀ (st : ResState) (s' m d' n : String),
        listHasInfix [':', '/', '/'] n.data = false → m ≠ n →
        readResource ("screenshot://" ++ n) (addScreenshot s' m d' st)
          = readResource ("screenshot://" ++ n) st)
    ∧ (∀ (st : ResState) (s' n : String),
        listHasInfix [':', '/', '/'] n.data = false →
        (∀ names, mapLookup st.sessionScreenshots s' = some names →
          n ∉ names) →
        readResource ("screenshot://" ++ n) (cleanupSessionScreenshots s' st).2
          = readResource ("screenshot://" ++ n) st)
    ∧ (∀ (st : ResState) (uri : String),
        strStartsWith uri "screenshot://" = false →
        readResource uri st = .error ("Resource not found: " ++ uri))
    ∧ (∀ (st : ResState) (n : String),
        listHasInfix [':', '/', '/'] n.data = false →
        mapLookup st.screenshots n = none →
        readResource ("screenshot://" ++ n) st
          = .error ("Resource not found: " ++ ("screenshot://" ++ n))) := by
  refine ⟨?_, ?_, ?_, ?_, ?_⟩
  · intro st s n d hno hd
    rw [readResource_clean_name hno, addScreenshot_screenshots,
        mapLookup_mapSet_self]
    simp [hd]
  · intro st s' m d' n hno hm
    rw [readResource_clean_name hno, readResource_clean_name hno,
        addScreenshot_screenshots, mapLookup_mapSet_ne _ _ (fun h => hm h.symm)]
  · intro st s' n hno htrack
    rw [readResource_clean_name hno, readResource_clean_name hno,
        cleanup_preserves_untracked_lookup htrack]
  · intro st uri hs
    rw [readResource, if_neg (by rw [hs]; exact fun h => Bool.noConfusion h)]
  · intro st n hno hlook
    rw [readResource_clean_name hno, hlook]

/-- C9 witness: the round-trip on a concrete session, name and data. -/
theorem claim_C9_screenshot_roundtrip_witness :
    readResource "screenshot://shot1"
        (addScreenshot "s" "shot1" "img" resInit)
      = .ok [("screenshot://shot1", "image/png", "img")] := by
  have h := claim_C9_screenshot_roundtrip.1 resInit "s" "shot1" "img"
    (by decide) (by decide)
  simpa using h

/-! ### C6 — the fingerprint is deterministic and injective -/

theorem decodeEsc_escapeChar (c : Char) (rest : List Char) :
    decodeEsc (escapeChar c ++ rest) = some (c, rest) := by
  by_cases h1 : c = '"'
  · subst h1; rfl
  by_cases h2 : c = '\\'
  · subst h2; rfl
  by_cases h3 : c = '\x08'
  · subst h3; rfl
  by_cases h4 : c = '\t'
  · subst h4; rfl
  by_cases h5 : c = '\n'
  · subst h5; rfl
  by_cases h6 : c = '\x0c'
  · subst h6; rfl
  by_cases h7 : c = '\r'
  · subst h7; rfl
  by_cases h8 : c.toNat < 32
  · have hesc : escapeChar c = ['\\', 'u', '0', '0',
        hexDigit (c.toNat / 16), hexDigit (c.toNat % 16)] := by
      rw [escapeChar]
      simp [h1, h2, h3, h4, h5, h6, h7, h8]
    rw [hesc]
    show (match hexVal (hexDigit (c.toNat / 16)),
            hexVal (hexDigit (c.toNat % 16)) with
          | some hv, some lv => some (Char.ofNat (16 * hv + lv), rest)
          | _, _ => none) = some (c, rest)
    have hhex : ∀ m, m < 16 → hexVal (hexDigit m) = some m := by decide
    have hdiv : c.toNat / 16 < 16 := by omega
    have hmod : c.toNat % 16 < 16 := by omega
    rw [hhex _ hdiv, hhex _ hmod]
    show some (Char.ofNat (16 * (c.toNat / 16) + c.toNat % 16), rest)
        = some (c, rest)
    rw [Nat.div_add_mod, Char.ofNat_toNat]
  · have hesc : escapeChar c = [c] := by
      rw [escapeChar]
      simp [h1, h2, h3, h4, h5, h6, h7, h8]
    rw [hesc]
    show decodeEsc (c :: rest) = some (c, rest)
    simp only [decodeEsc]
    rw [if_neg h2, if_neg h1]

theorem escape_quote_inj : ∀ (s1 s2 r1 r2 : List Char),
    s1.flatMap escapeChar ++ '"' :: r1 = s2.flatMap escapeChar ++ '"' :: r2 →
    s1 = s2 ∧ r1 = r2 := by
  intro s1
  induction s1 with
  | nil =>
    intro s2 r1 r2 h
    cases s2 with
    | nil =>
      simp only [List.flatMap_nil, List.nil_append] at h
      injection h with _ hr
      exact ⟨rfl, hr⟩
    | cons c2 s2' =>
      exfalso
      simp only [List.flatMap_nil, List.flatMap_cons, List.nil_append,
        List.append_assoc] at h
      have hnone : decodeEsc ('"' :: r1) = none := rfl
      have hd := (congrArg decodeEsc h).symm.trans hnone
      rw [decodeEsc_escapeChar] at hd
      exact Option.noConfusion hd
  | cons c1 s1' ih =>
    intro s2 r1 r2 h
    cases s2 with
    | nil =>
      exfalso
      simp only [List.flatMap_nil, List.flatMap_cons, List.nil_append,
        List.append_assoc] at h
      have hnone : decodeEsc ('"' :: r2) = none := rfl
      have hd := (congrArg decodeEsc h).trans hnone
      rw [decodeEsc_escapeChar] at hd
      exact Option.noConfusion hd
    | cons c2 s2' =>
      simp only [List.flatMap_cons, List.append_assoc] at h
      have hd := congrArg decodeEsc h
      rw [decodeEsc_escapeChar, decodeEsc_escapeChar] at hd
      injection hd with hd1
      injection hd1 with hc htail
      obtain ⟨hs, hr⟩ := ih s2' r1 r2 htail
      exact ⟨by rw [hc, hs], hr⟩

theorem jsonString_append_inj {s1 s2 r1 r2 : List Char}
    (h : jsonString s1 ++ r1 = jsonString s2 ++ r2) : s1 = s2 ∧ r1 = r2 := by
  simp only [jsonString, List.cons_append, List.append_assoc,
    List.singleton_append] at h
  injection h with _ h2
  exact escape_quote_inj _ _ _ _ h2

/-- C6 confirmed: `getSessionKey` is a pure function of the credential
tuple — equal tuples give equal fingerprints — and it is injective:
equal fingerprints force every field (including the optional context id)
to coincide, so configurations differing in any field have different
fingerprints.  Injectivity holds for arbitrary credential strings
because the `JSON.stringify` encoding is a prefix code (`decodeEsc`
inverts `escapeChar`). -/
theorem claim_C6_fingerprint_deterministic_injective :
    (∀ c1 c2 : ConstructorParams, c1 = c2 →
      getSessionKey c1 = getSessionKey c2)
    ∧ (∀ c1 c2 : ConstructorParams, getSessionKey c1 = getSessionKey c2 →
      c1 = c2) := by
  constructor
  · intro c1 c2 h
    rw [h]
  · intro c1 c2 h
    have hchars : getSessionKeyChars c1 = getSessionKeyChars c2 := by
      have hd := congrArg String.data h
      simpa [getSessionKey] using hd
    obtain ⟨a1, p1, o1, x1⟩ := c1
    obtain ⟨a2, p2, o2, x2⟩ := c2
    simp only [getSessionKeyChars, List.append_assoc] at hchars
    have h1 := List.append_cancel_left hchars
    obtain ⟨ha, h2⟩ := jsonString_append_inj h1
    have h3 := List.append_cancel_left h2
    obtain ⟨hp, h4⟩ := jsonString_append_inj h3
    have h5 := List.append_cancel_left h4
    obtain ⟨ho, h6⟩ := jsonString_append_inj h5
    simp only [ConstructorParams.mk.injEq]
    refine ⟨String.ext ha, String.ext hp, String.ext ho, ?_⟩
    have hsep : (",\"contextId\":".data)
        = ',' :: "\"contextId\":".data := rfl
    cases x1 with
    | none =>
      cases x2 with
      | none => rfl
      | some ctx2 =>
        exfalso
        simp only [List.nil_append, List.append_assoc, hsep,
          List.cons_append] at h6
        injection h6 with hhead _
        exact absurd hhead (by decide)
    | some ctx1 =>
      cases x2 with
      | none =>
        exfalso
        simp only [List.nil_append, List.append_assoc, hsep,
          List.cons_append] at h6
        injection h6 with hhead _
        exact absurd hhead (by decide)
      | some ctx2 =>
        simp only [List.append_assoc] at h6
        have h7 := List.append_cancel_left h6
        obtain ⟨hctx, _⟩ := jsonString_append_inj h7
        rw [String.ext hctx]

/-- C6 witness: the two directions applied at concrete configurations. -/
theorem claim_C6_fingerprint_deterministic_injective_witness :
    getSessionKey demoConfig = getSessionKey demoConfig
    ∧ demoConfig = demoConfig :=
  ⟨claim_C6_fingerprint_deterministic_injective.1 demoConfig demoConfig rfl,
   claim_C6_fingerprint_deterministic_injective.2 demoConfig demoConfig rfl⟩

end Stagehand
